import Mathlib

/-!
# Verification of the Position Aggregation & Profit/Loss Engine

Shallow embedding of the per-ticker aggregation, realization and valuation
loop of `src/tracker.py` (the "Live Dashboard" tab), together with proofs
about the spec's claims.

Modelling conventions:
* A row of the Google-sheet ledger (`Date`, `Ticker`, `Type`, `Qty`, `Price`,
  `Platform`) becomes a `TradeRecord`.  Dates are modelled as `Nat` (only
  their ordering matters), quantities and prices as `ℚ` (the Python floats,
  modelled exactly; see `avgBuyPriceNaN` for the one place where IEEE NaN
  semantics matter and are modelled explicitly).
* The live quote `yf.Ticker(t).fast_info['last_price']` wrapped in
  `try/except` is modelled as a function `q : String → Option ℚ`:
  `none` means the lookup raised and the `except` branch runs.
* The company-name lookup `get_company_name` is an external collaborator,
  modelled as an arbitrary function `nm : String → String`.
* `pandas.sort_values("Date")` uses the default quicksort, which is not
  stable, so the program's only contract is "some permutation of the rows,
  sorted by `Date`"; that contract is the relation `sortValuesDate`.  The
  function `chartEvents` fixes one permitted output (a deterministic date
  sort) as a canonical representative; no theorem relies on its tie order.
-/

namespace Tracker

/-- One row of the ledger sheet: `Date, Ticker, Type, Qty, Price, Platform`.
`type` is a free string, exactly as in the sheet (the code only ever
compares it with `'Buy'` and `'Sell'`). -/
structure TradeRecord where
  date : Nat
  ticker : String
  type : String
  qty : ℚ
  price : ℚ
  platform : String
deriving DecidableEq

/-- The ledger: the rows of the sheet, in sheet (insertion) order. -/
abbrev Ledger := List TradeRecord

/-- `buys = t_df[t_df['Type'] == 'Buy']` where `t_df` is the sub-frame of
rows whose `Ticker` equals `t` (line 104-105 of `src/tracker.py`). -/
def buys (l : Ledger) (t : String) : Ledger :=
  l.filter (fun r => decide (r.ticker = t) && decide (r.type = "Buy"))

/-- `sells = t_df[t_df['Type'] == 'Sell']` (line 106 of `src/tracker.py`). -/
def sells (l : Ledger) (t : String) : Ledger :=
  l.filter (fun r => decide (r.ticker = t) && decide (r.type = "Sell"))

/-- `buys['Qty'].sum()`. -/
def totalBuyQty (l : Ledger) (t : String) : ℚ :=
  ((buys l t).map (·.qty)).sum

/-- `sells['Qty'].sum()`. -/
def totalSellQty (l : Ledger) (t : String) : ℚ :=
  ((sells l t).map (·.qty)).sum

/-- `net_qty = buys['Qty'].sum() - sells['Qty'].sum()` (line 107). -/
def netQty (l : Ledger) (t : String) : ℚ :=
  totalBuyQty l t - totalSellQty l t

/-- `(buys['Qty'] * buys['Price']).sum()`. -/
def totalBuyCost (l : Ledger) (t : String) : ℚ :=
  ((buys l t).map (fun r => r.qty * r.price)).sum

/-- `avg_buy_price = (buys['Qty'] * buys['Price']).sum() / buys['Qty'].sum()`
(line 111, identical expression `avg_cost` on line 119).  Over `ℚ` a zero
denominator yields `0`; the code's float semantics at a zero denominator
(NaN) is modelled separately by `avgBuyPriceNaN`. -/
def avgBuyPrice (l : Ledger) (t : String) : ℚ :=
  totalBuyCost l t / totalBuyQty l t

/-- First-occurrence deduplication, the order produced by
`all_data['Ticker'].unique()` (line 103). -/
def uniqueList : List String → List String
  | [] => []
  | x :: xs => x :: uniqueList (xs.filter (fun y => decide (y ≠ x)))
termination_by l => l.length
decreasing_by
  simp only [List.length_cons]
  exact Nat.lt_succ_of_le (List.length_filter_le _ _)

/-- `all_data['Ticker'].unique()`: tickers in order of first appearance. -/
def uniqueTickers (l : Ledger) : List String :=
  uniqueList (l.map (·.ticker))

/-- One entry of `realized_trades` (line 115):
`{"Date": sell_row['Date'], "Ticker": ticker, "Profit": profit}`. -/
structure RealizedEvent where
  date : Nat
  ticker : String
  profit : ℚ
deriving DecidableEq

/-- The event the loop body on lines 112-115 appends for one sell row:
`profit = (sell_row['Price'] - avg_buy_price) * sell_row['Qty']`. -/
def mkEvent (l : Ledger) (t : String) (r : TradeRecord) : RealizedEvent :=
  ⟨r.date, t, (r.price - avgBuyPrice l t) * r.qty⟩

/-- The realized events one ticker contributes (the inner
`for _, sell_row in sells.iterrows()` loop, lines 112-115; when `sells`
is empty the guarded block appends nothing). -/
def eventsFor (l : Ledger) (t : String) : List RealizedEvent :=
  (sells l t).map (mkEvent l t)

/-- `realized_trades` after the whole per-ticker loop: tickers are visited
in `unique()` order, sells of one ticker in row order. -/
def realizedTrades (l : Ledger) : List RealizedEvent :=
  (uniqueTickers l).flatMap (eventsFor l)

/-- `total_realized_profit`: the sum of all appended profits (line 114). -/
def totalRealizedProfit (l : Ledger) : ℚ :=
  ((realizedTrades l).map (·.profit)).sum

/-- `live_price`: the `try yf ... except: live_price = avg_cost` block
(lines 120-123).  `q t = none` models a raised exception. -/
def livePrice (q : String → Option ℚ) (l : Ledger) (t : String) : ℚ :=
  match q t with
  | some p => p
  | none => avgBuyPrice l t

/-- `cur_val = net_qty * live_price` (line 125). -/
def curVal (q : String → Option ℚ) (l : Ledger) (t : String) : ℚ :=
  netQty l t * livePrice q l t

/-- `un_pnl = cur_val - (net_qty * avg_cost)` (line 126). -/
def unPnl (q : String → Option ℚ) (l : Ledger) (t : String) : ℚ :=
  curVal q l t - netQty l t * avgBuyPrice l t

/-- One entry of `active_positions` (lines 130-133). -/
structure Position where
  ticker : String
  company : String
  shares : ℚ
  avgCost : ℚ
  live : ℚ
  value : ℚ
  pnl : ℚ
deriving DecidableEq

/-- `active_positions` after the loop: one record per ticker with
`net_qty > 0` (the `if net_qty > 0:` branch, lines 118-133).
`nm` models the external `get_company_name`. -/
def activePositions (q : String → Option ℚ) (nm : String → String)
    (l : Ledger) : List Position :=
  (uniqueTickers l).filterMap (fun t =>
    if 0 < netQty l t then
      some ⟨t, nm t, netQty l t, avgBuyPrice l t, livePrice q l t,
        curVal q l t, unPnl q l t⟩
    else none)

/-- `total_market_val`: accumulated inside the `if net_qty > 0:` branch
(line 127). -/
def totalMarketVal (q : String → Option ℚ) (l : Ledger) : ℚ :=
  ((uniqueTickers l).map (fun t => if 0 < netQty l t then curVal q l t else 0)).sum

/-- `total_unrealized_pnl`: accumulated inside the `if net_qty > 0:` branch
(line 128). -/
def totalUnrealizedPnl (q : String → Option ℚ) (l : Ledger) : ℚ :=
  ((uniqueTickers l).map (fun t => if 0 < netQty l t then unPnl q l t else 0)).sum

/-- Date comparison used by `sort_values("Date")`. -/
def dateLE (a b : RealizedEvent) : Bool :=
  decide (a.date ≤ b.date)

/-- The contract of `chart_df = pd.DataFrame(realized_trades)
.sort_values("Date")` (line 151).  The default `kind='quicksort'` is not
stable, so the program guarantees only that the output is *some*
permutation of the input rows that is sorted by `Date`; the relative order
of rows with equal dates is unspecified.  `sortValuesDate input out` says
`out` is a permitted output for `input`. -/
def sortValuesDate (input out : List RealizedEvent) : Prop :=
  out.Perm input ∧ out.Pairwise (fun a b => a.date ≤ b.date)

/-- One permitted output of the sort step of line 151: a deterministic
date sort of `realized_trades`, used as a canonical representative (for
example to state that the outputs do not depend on the `Platform` column).
Its particular tie order is *not* a contract of the program: every
guarantee about the chart series is stated against `sortValuesDate`. -/
def chartEvents (l : Ledger) : List RealizedEvent :=
  (realizedTrades l).mergeSort dateLE

/-- `cumsum`: `chart_df["Profit"].cumsum()` (line 152). -/
def cumsum (xs : List ℚ) : List ℚ :=
  (xs.scanl (· + ·) 0).tail

/-- `chart_df["Cumulative Profit"]` (line 152) for a sorted output
`out`. -/
def cumulativeProfitOf (out : List RealizedEvent) : List ℚ :=
  cumsum (out.map (·.profit))

/-- `chart_df["Cumulative Profit"]` (line 152) for the canonical
representative `chartEvents`. -/
def cumulativeProfit (l : Ledger) : List ℚ :=
  cumsum ((chartEvents l).map (·.profit))

/-- `load_data` (lines 21-26): `conn.read` either returns the sheet or
raises; on any exception an empty frame is returned. -/
def load_data (r : Except String Ledger) : Ledger :=
  match r with
  | .ok l => l
  | .error _ => []

/-!
## Spec-side definitions

For the refinement claims these restate, in the spec's own words, the
quantities the code computes; each is written as one pass over the raw
ledger, deliberately in a different computational shape from the code's
filter-then-sum, so that agreement is a theorem and not a restatement.
-/

/-- Follows the spec's words (§3): "`netQuantity` = sum of Buy quantities −
sum of Sell quantities for the key, evaluated over the full ledger" — here
as a single running total over the ledger. -/
def specNetQty (l : Ledger) (t : String) : ℚ :=
  l.foldl (fun s r =>
    if r.ticker = t then
      if r.type = "Buy" then s + r.qty
      else if r.type = "Sell" then s - r.qty
      else s
    else s) 0

/-- Follows the spec's words (§3): the pair (sum of Buy quantities,
sum over Buy records of quantity×price) for the key, as a single running
pair over the ledger; the spec's `averageCost` is the ratio of the second
component to the first. -/
def specBuyTotals (l : Ledger) (t : String) : ℚ × ℚ :=
  l.foldl (fun s r =>
    if r.ticker = t ∧ r.type = "Buy" then (s.1 + r.qty, s.2 + r.qty * r.price)
    else s) (0, 0)

/-!
## Basic lemmas relating the code's grouped sums to single-pass totals
-/

theorem specNetQty_foldl (t : String) :
    ∀ (l : Ledger) (s : ℚ),
      l.foldl (fun s r =>
        if r.ticker = t then
          if r.type = "Buy" then s + r.qty
          else if r.type = "Sell" then s - r.qty
          else s
        else s) s = s + (totalBuyQty l t - totalSellQty l t)
  | [], s => by
    simp [totalBuyQty, totalSellQty, buys, sells]
  | r :: l, s => by
    rw [List.foldl_cons, specNetQty_foldl t l]
    simp only [totalBuyQty, totalSellQty, buys, sells, List.filter_cons]
    by_cases h1 : r.ticker = t
    · by_cases h2 : r.type = "Buy"
      · simp [h1, h2]; ring
      · by_cases h3 : r.type = "Sell"
        · simp [h1, h2, h3]; ring
        · simp [h1, h2, h3]
    · simp [h1]

theorem specBuyTotals_foldl (t : String) :
    ∀ (l : Ledger) (s : ℚ × ℚ),
      l.foldl (fun s r =>
        if r.ticker = t ∧ r.type = "Buy" then (s.1 + r.qty, s.2 + r.qty * r.price)
        else s) s = (s.1 + totalBuyQty l t, s.2 + totalBuyCost l t)
  | [], s => by
    simp [totalBuyQty, totalBuyCost, buys]
  | r :: l, s => by
    rw [List.foldl_cons, specBuyTotals_foldl t l]
    simp only [totalBuyQty, totalBuyCost, buys, List.filter_cons]
    by_cases h1 : r.ticker = t
    · by_cases h2 : r.type = "Buy"
      · simp [h1, h2]; constructor <;> ring
      · simp [h1, h2]
    · simp [h1]

theorem specNetQty_eq (l : Ledger) (t : String) :
    specNetQty l t = totalBuyQty l t - totalSellQty l t := by
  rw [specNetQty, specNetQty_foldl t l 0, zero_add]

theorem specBuyTotals_eq (l : Ledger) (t : String) :
    specBuyTotals l t = (totalBuyQty l t, totalBuyCost l t) := by
  rw [specBuyTotals, specBuyTotals_foldl t l (0, 0)]
  simp

theorem mem_uniqueList : ∀ (m : List String) (x : String), x ∈ uniqueList m ↔ x ∈ m
  | [], x => by simp [uniqueList]
  | y :: ys, x => by
    rw [uniqueList]
    by_cases hxy : x = y
    · simp [hxy]
    · simp only [List.mem_cons, hxy, false_or]
      rw [mem_uniqueList (ys.filter (fun z => decide (z ≠ y))) x]
      simp [hxy]
termination_by m => m.length
decreasing_by
  simp only [List.length_cons]
  exact Nat.lt_succ_of_le (List.length_filter_le _ _)

theorem nodup_uniqueList : ∀ (m : List String), (uniqueList m).Nodup
  | [] => by simp [uniqueList]
  | y :: ys => by
    rw [uniqueList]
    refine List.nodup_cons.2 ⟨fun hy => ?_, nodup_uniqueList (ys.filter (fun z => decide (z ≠ y)))⟩
    rw [mem_uniqueList] at hy
    simp at hy
termination_by m => m.length
decreasing_by
  simp only [List.length_cons]
  exact Nat.lt_succ_of_le (List.length_filter_le _ _)

theorem mem_uniqueTickers {l : Ledger} {t : String} :
    t ∈ uniqueTickers l ↔ ∃ r ∈ l, r.ticker = t := by
  rw [uniqueTickers, mem_uniqueList, List.mem_map]

theorem buys_eq_nil_of_not_mem {l : Ledger} {t : String}
    (h : t ∉ uniqueTickers l) : buys l t = [] := by
  rw [buys, List.filter_eq_nil_iff]
  intro r hr
  simp only [Bool.and_eq_true, decide_eq_true_eq, not_and]
  intro hrt _
  exact h (mem_uniqueTickers.2 ⟨r, hr, hrt⟩)

theorem sells_eq_nil_of_not_mem {l : Ledger} {t : String}
    (h : t ∉ uniqueTickers l) : sells l t = [] := by
  rw [sells, List.filter_eq_nil_iff]
  intro r hr
  simp only [Bool.and_eq_true, decide_eq_true_eq, not_and]
  intro hrt _
  exact h (mem_uniqueTickers.2 ⟨r, hr, hrt⟩)

theorem netQty_eq_zero_of_not_mem {l : Ledger} {t : String}
    (h : t ∉ uniqueTickers l) : netQty l t = 0 := by
  simp [netQty, totalBuyQty, totalSellQty, buys_eq_nil_of_not_mem h,
    sells_eq_nil_of_not_mem h]

theorem mem_uniqueTickers_of_netQty_ne_zero {l : Ledger} {t : String}
    (h : netQty l t ≠ 0) : t ∈ uniqueTickers l := by
  by_contra hc
  exact h (netQty_eq_zero_of_not_mem hc)

theorem sells_eq_nil_of_totalSellQty_and_profit {l : Ledger} {t : String}
    (h : t ∉ uniqueTickers l) : eventsFor l t = [] := by
  simp [eventsFor, sells_eq_nil_of_not_mem h]

/-- A record transform which keeps every field the aggregation loop reads. -/
def preservesFields (g : TradeRecord → TradeRecord) : Prop :=
  ∀ r, (g r).ticker = r.ticker ∧ (g r).type = r.type ∧
    (g r).qty = r.qty ∧ (g r).price = r.price

theorem buys_map {g : TradeRecord → TradeRecord} (hg : preservesFields g)
    (l : Ledger) (t : String) : buys (l.map g) t = (buys l t).map g := by
  rw [buys, buys, List.filter_map]
  congr 1
  apply List.filter_congr
  intro r _
  simp [Function.comp, (hg r).1, (hg r).2.1]

theorem sells_map {g : TradeRecord → TradeRecord} (hg : preservesFields g)
    (l : Ledger) (t : String) : sells (l.map g) t = (sells l t).map g := by
  rw [sells, sells, List.filter_map]
  congr 1
  apply List.filter_congr
  intro r _
  simp [Function.comp, (hg r).1, (hg r).2.1]

theorem totalBuyQty_map {g : TradeRecord → TradeRecord} (hg : preservesFields g)
    (l : Ledger) (t : String) : totalBuyQty (l.map g) t = totalBuyQty l t := by
  rw [totalBuyQty, totalBuyQty, buys_map hg, List.map_map]
  congr 1
  apply List.map_congr_left
  intro r _
  simp [Function.comp, (hg r).2.2.1]

theorem totalSellQty_map {g : TradeRecord → TradeRecord} (hg : preservesFields g)
    (l : Ledger) (t : String) : totalSellQty (l.map g) t = totalSellQty l t := by
  rw [totalSellQty, totalSellQty, sells_map hg, List.map_map]
  congr 1
  apply List.map_congr_left
  intro r _
  simp [Function.comp, (hg r).2.2.1]

theorem totalBuyCost_map {g : TradeRecord → TradeRecord} (hg : preservesFields g)
    (l : Ledger) (t : String) : totalBuyCost (l.map g) t = totalBuyCost l t := by
  rw [totalBuyCost, totalBuyCost, buys_map hg, List.map_map]
  congr 1
  apply List.map_congr_left
  intro r _
  simp [Function.comp, (hg r).2.2.1, (hg r).2.2.2]

theorem netQty_map {g : TradeRecord → TradeRecord} (hg : preservesFields g)
    (l : Ledger) (t : String) : netQty (l.map g) t = netQty l t := by
  rw [netQty, netQty, totalBuyQty_map hg, totalSellQty_map hg]

theorem avgBuyPrice_map {g : TradeRecord → TradeRecord} (hg : preservesFields g)
    (l : Ledger) (t : String) : avgBuyPrice (l.map g) t = avgBuyPrice l t := by
  rw [avgBuyPrice, avgBuyPrice, totalBuyQty_map hg, totalBuyCost_map hg]

theorem uniqueTickers_map {g : TradeRecord → TradeRecord} (hg : preservesFields g)
    (l : Ledger) : uniqueTickers (l.map g) = uniqueTickers l := by
  rw [uniqueTickers, uniqueTickers, List.map_map]
  congr 1
  apply List.map_congr_left
  intro r _
  exact (hg r).1

/-!
## C1 and C5
-/

/-- **C1** (confirmed): for every ledger and every ticker whose total Buy
quantity is positive, the code's `net_qty` equals the spec's
`netQuantity` (sum of Buy quantities minus sum of Sell quantities over the
full ledger), and the code's `avg_buy_price` is the Buy-quantity-weighted
mean of Buy prices: multiplied by the total Buy quantity it gives the total
Buy cost, and it equals (sum of quantity×price) / (sum of quantities). -/
theorem C1_netQty_and_weighted_average_cost (l : Ledger) (t : String)
    (h : 0 < totalBuyQty l t) :
    netQty l t = specNetQty l t ∧
    (specBuyTotals l t).1 = totalBuyQty l t ∧
    avgBuyPrice l t * (specBuyTotals l t).1 = (specBuyTotals l t).2 ∧
    avgBuyPrice l t = (specBuyTotals l t).2 / (specBuyTotals l t).1 := by
  rw [specNetQty_eq, specBuyTotals_eq]
  refine ⟨rfl, rfl, ?_, rfl⟩
  rw [avgBuyPrice]
  exact div_mul_cancel₀ _ (ne_of_gt h)

/-- Witness for C1: a two-buy, one-sell ledger with positive buy quantity. -/
theorem C1_netQty_and_weighted_average_cost_witness :
    0 < totalBuyQty
      [⟨1, "AAA", "Buy", 10, 100, "P"⟩, ⟨2, "AAA", "Buy", 10, 120, "P"⟩,
        ⟨3, "AAA", "Sell", 5, 150, "P"⟩] "AAA" ∧
    (netQty
      [⟨1, "AAA", "Buy", 10, 100, "P"⟩, ⟨2, "AAA", "Buy", 10, 120, "P"⟩,
        ⟨3, "AAA", "Sell", 5, 150, "P"⟩] "AAA" =
      specNetQty
      [⟨1, "AAA", "Buy", 10, 100, "P"⟩, ⟨2, "AAA", "Buy", 10, 120, "P"⟩,
        ⟨3, "AAA", "Sell", 5, 150, "P"⟩] "AAA" ∧
    (specBuyTotals
      [⟨1, "AAA", "Buy", 10, 100, "P"⟩, ⟨2, "AAA", "Buy", 10, 120, "P"⟩,
        ⟨3, "AAA", "Sell", 5, 150, "P"⟩] "AAA").1 = totalBuyQty
      [⟨1, "AAA", "Buy", 10, 100, "P"⟩, ⟨2, "AAA", "Buy", 10, 120, "P"⟩,
        ⟨3, "AAA", "Sell", 5, 150, "P"⟩] "AAA" ∧
    avgBuyPrice
      [⟨1, "AAA", "Buy", 10, 100, "P"⟩, ⟨2, "AAA", "Buy", 10, 120, "P"⟩,
        ⟨3, "AAA", "Sell", 5, 150, "P"⟩] "AAA" * (specBuyTotals
      [⟨1, "AAA", "Buy", 10, 100, "P"⟩, ⟨2, "AAA", "Buy", 10, 120, "P"⟩,
        ⟨3, "AAA", "Sell", 5, 150, "P"⟩] "AAA").1 = (specBuyTotals
      [⟨1, "AAA", "Buy", 10, 100, "P"⟩, ⟨2, "AAA", "Buy", 10, 120, "P"⟩,
        ⟨3, "AAA", "Sell", 5, 150, "P"⟩] "AAA").2 ∧
    avgBuyPrice
      [⟨1, "AAA", "Buy", 10, 100, "P"⟩, ⟨2, "AAA", "Buy", 10, 120, "P"⟩,
        ⟨3, "AAA", "Sell", 5, 150, "P"⟩] "AAA" = (specBuyTotals
      [⟨1, "AAA", "Buy", 10, 100, "P"⟩, ⟨2, "AAA", "Buy", 10, 120, "P"⟩,
        ⟨3, "AAA", "Sell", 5, 150, "P"⟩] "AAA").2 / (specBuyTotals
      [⟨1, "AAA", "Buy", 10, 100, "P"⟩, ⟨2, "AAA", "Buy", 10, 120, "P"⟩,
        ⟨3, "AAA", "Sell", 5, 150, "P"⟩] "AAA").1) := by
  constructor
  · simp [totalBuyQty, buys, List.filter]
  · exact C1_netQty_and_weighted_average_cost _ _ (by
      simp [totalBuyQty, buys, List.filter])

/-!
## C2: sells with no buy history (float semantics of the division)

Over Python floats, `buys['Qty'].sum()` is `0.0` when `buys` is empty, and
`0.0 / 0.0` is NaN, which then propagates through `-`, `*` and `+=`.
`Option ℚ` models this exactly for the realized block: `none` is the
non-number produced by the zero-denominator division of line 111, and it
propagates through every later arithmetic operation.
-/

/-- `avg_buy_price` (line 111) with the float semantics of a zero
denominator made explicit: `none` models the non-number produced by a zero
denominator (NaN for `0.0/0.0`, an infinity for `x/0.0`), `some` the exact
quotient otherwise. -/
def avgBuyPriceNaN (l : Ledger) (t : String) : Option ℚ :=
  if totalBuyQty l t = 0 then none
  else some (totalBuyCost l t / totalBuyQty l t)

/-- `profit = (sell_row['Price'] - avg_buy_price) * sell_row['Qty']`
(line 113) under the same semantics: NaN in, NaN out. -/
def profitNaN (l : Ledger) (t : String) (r : TradeRecord) : Option ℚ :=
  (avgBuyPriceNaN l t).map (fun a => (r.price - a) * r.qty)

/-- Float addition with NaN propagation. -/
def addNaN (a b : Option ℚ) : Option ℚ :=
  a.bind (fun x => b.map (fun y => x + y))

/-- `total_realized_profit` (initialised on line 101, accumulated on
line 114) under float semantics: starts at `0.0`, and every profit of every
sell row is added, tickers in `unique()` order, NaN propagating. -/
def totalRealizedProfitNaN (l : Ledger) : Option ℚ :=
  (uniqueTickers l).foldl
    (fun acc t => (sells l t).foldl (fun a r => addNaN a (profitNaN l t r)) acc)
    (some 0)

/-- The spec's failing scenario for C2: a sell with no buy history. -/
def ledgerC2 : Ledger := [⟨1, "AAA", "Sell", 5, 100, "P"⟩]

/-- **C2** (code bug): on the ledger [Sell AAA qty=5 price=100 date=D1]
with no prior buys, the code does not report any `OrphanSell` condition.
Line 111 computes `avg_buy_price = 0.0/0.0` = NaN, lines 112-115 append a
realized event for the key (it is not excluded from realized output) and
poison `total_realized_profit` to NaN — modelled here as
`totalRealizedProfitNaN ledgerC2 = none` — rather than reporting an error.
Only the valuation side is unaffected (net quantity −5 fails the
`net_qty > 0` test, so no active position and no market-value
contribution).  No exception is raised (the embedding is total). -/
theorem C2_orphan_sell_not_reported :
    totalRealizedProfitNaN ledgerC2 = none ∧
    avgBuyPriceNaN ledgerC2 "AAA" = none ∧
    (realizedTrades ledgerC2).length = 1 ∧
    netQty ledgerC2 "AAA" = -5 ∧
    activePositions (fun _ => none) (fun t => t) ledgerC2 = [] ∧
    totalMarketVal (fun _ => none) ledgerC2 = 0 ∧
    totalUnrealizedPnl (fun _ => none) ledgerC2 = 0 := by
  refine ⟨?_, ?_, ?_, ?_, ?_, ?_, ?_⟩ <;>
    simp [ledgerC2, totalRealizedProfitNaN, avgBuyPriceNaN, profitNaN,
      addNaN, uniqueTickers, uniqueList, sells, buys, totalBuyQty,
      totalSellQty, totalBuyCost, netQty, realizedTrades, eventsFor,
      mkEvent, activePositions, totalMarketVal, totalUnrealizedPnl,
      List.filter]

/-!
## C3: the realized-profit formula
-/

theorem mem_sells {l : Ledger} {t : String} {r : TradeRecord} :
    r ∈ sells l t ↔ r ∈ l ∧ r.ticker = t ∧ r.type = "Sell" := by
  simp [sells, List.mem_filter, and_assoc]

/-- **C3** (confirmed): every Sell record of a ticker with defined average
cost contributes its realized event to `realized_trades`, the profit is
(sell price − average cost) × sell quantity, and the average cost is the
full-ledger quotient Σ(qty×price)/Σqty over all Buy records of the ticker —
in particular it is invariant under arbitrary reassignment of every
record's date, so Buy records dated after the sell participate in it
exactly like earlier ones. -/
theorem C3_realized_profit_uses_full_ledger_average (l : Ledger) (t : String)
    (r : TradeRecord) (hr : r ∈ sells l t) (h : 0 < totalBuyQty l t) :
    mkEvent l t r ∈ realizedTrades l ∧
    (mkEvent l t r).profit =
      (r.price - totalBuyCost l t / totalBuyQty l t) * r.qty ∧
    ∀ f : Nat → Nat,
      avgBuyPrice (l.map (fun x => { x with date := f x.date })) t =
        avgBuyPrice l t := by
  refine ⟨?_, rfl, ?_⟩
  · rw [realizedTrades]
    apply List.mem_flatMap.2
    obtain ⟨hrl, hrt, -⟩ := mem_sells.1 hr
    exact ⟨t, mem_uniqueTickers.2 ⟨r, hrl, hrt⟩, List.mem_map_of_mem _ hr⟩
  · intro f
    exact @avgBuyPrice_map (fun x => { x with date := f x.date })
      (fun x => ⟨rfl, rfl, rfl, rfl⟩) l t

/-- Ledger for the C3 witness: one buy, then one sell. -/
def ledgerC3 : Ledger :=
  [⟨1, "AAA", "Buy", 10, 100, "P"⟩, ⟨2, "AAA", "Sell", 5, 150, "P"⟩]

/-- The sell record of `ledgerC3`. -/
def sellC3 : TradeRecord := ⟨2, "AAA", "Sell", 5, 150, "P"⟩

/-- Witness for C3: the hypotheses hold on `ledgerC3` and the conclusion
follows by applying the theorem there. -/
theorem C3_realized_profit_uses_full_ledger_average_witness :
    sellC3 ∈ sells ledgerC3 "AAA" ∧ 0 < totalBuyQty ledgerC3 "AAA" ∧
    (mkEvent ledgerC3 "AAA" sellC3 ∈ realizedTrades ledgerC3 ∧
     (mkEvent ledgerC3 "AAA" sellC3).profit =
       (sellC3.price -
         totalBuyCost ledgerC3 "AAA" / totalBuyQty ledgerC3 "AAA") *
         sellC3.qty ∧
     ∀ f : Nat → Nat,
       avgBuyPrice (ledgerC3.map (fun x => { x with date := f x.date }))
         "AAA" = avgBuyPrice ledgerC3 "AAA") := by
  refine ⟨?_, ?_, ?_⟩
  · simp [ledgerC3, sellC3, sells, List.filter]
  · simp [ledgerC3, totalBuyQty, buys, List.filter]
  · exact C3_realized_profit_uses_full_ledger_average ledgerC3 "AAA" sellC3
      (by simp [ledgerC3, sellC3, sells, List.filter])
      (by simp [ledgerC3, totalBuyQty, buys, List.filter])

/-!
## C4: quote failure falls back to cost
-/

/-- **C4** (confirmed): if the quote lookup for an open position fails
(`q t = none`, the `except` branch of lines 120-123), the position is
valued at its own average cost: its unrealized P/L is exactly 0, its market
value is netQuantity × averageCost, and the evaluation still completes —
the position still appears in `active_positions`, with zero P/L, rather
than any error reaching the caller. -/
theorem C4_quote_failure_values_at_cost (q : String → Option ℚ)
    (nm : String → String) (l : Ledger) (t : String)
    (hq : q t = none) (h : 0 < netQty l t) :
    unPnl q l t = 0 ∧
    curVal q l t = netQty l t * avgBuyPrice l t ∧
    ∃ p ∈ activePositions q nm l, p.ticker = t ∧ p.pnl = 0 ∧
      p.value = netQty l t * avgBuyPrice l t := by
  have hlp : livePrice q l t = avgBuyPrice l t := by rw [livePrice, hq]
  have h1 : curVal q l t = netQty l t * avgBuyPrice l t := by rw [curVal, hlp]
  have h2 : unPnl q l t = 0 := by rw [unPnl, h1]; ring
  refine ⟨h2, h1, ?_⟩
  refine ⟨⟨t, nm t, netQty l t, avgBuyPrice l t, livePrice q l t,
    curVal q l t, unPnl q l t⟩, ?_, rfl, h2, h1⟩
  apply List.mem_filterMap.2
  refine ⟨t, mem_uniqueTickers_of_netQty_ne_zero (ne_of_gt h), ?_⟩
  rw [if_pos h]

/-- Ledger for the C4 witness: a single open position. -/
def ledgerC4 : Ledger := [⟨1, "AAA", "Buy", 10, 100, "P"⟩]

/-- The always-failing quote source. -/
def quoteFail : String → Option ℚ := fun _ => none

/-- Witness for C4: the hypotheses hold on `ledgerC4` with the
always-failing quote source, and the conclusion follows by applying the
theorem there. -/
theorem C4_quote_failure_values_at_cost_witness :
    quoteFail "AAA" = none ∧ 0 < netQty ledgerC4 "AAA" ∧
    (unPnl quoteFail ledgerC4 "AAA" = 0 ∧
     curVal quoteFail ledgerC4 "AAA" =
       netQty ledgerC4 "AAA" * avgBuyPrice ledgerC4 "AAA" ∧
     ∃ p ∈ activePositions quoteFail (fun t => t) ledgerC4,
       p.ticker = "AAA" ∧ p.pnl = 0 ∧
       p.value = netQty ledgerC4 "AAA" * avgBuyPrice ledgerC4 "AAA") := by
  refine ⟨rfl, ?_, ?_⟩
  · simp [ledgerC4, netQty, totalBuyQty, totalSellQty, buys, sells,
      List.filter]
  · exact C4_quote_failure_values_at_cost quoteFail (fun t => t) ledgerC4
      "AAA" rfl
      (by simp [ledgerC4, netQty, totalBuyQty, totalSellQty, buys, sells,
        List.filter])

/-- The three-trade ledger of the spec's concrete scenario (§8). -/
def ledgerC5 : Ledger :=
  [⟨1, "AAA", "Buy", 10, 100, "P"⟩, ⟨2, "AAA", "Buy", 10, 120, "P"⟩,
    ⟨3, "AAA", "Sell", 5, 150, "P"⟩]

/-- A quote source that returns live price 130 for every symbol. -/
def quoteC5 : String → Option ℚ := fun _ => some 130

/-- **C5** (confirmed): on the ledger [Buy AAA 10@100, Buy AAA 10@120,
Sell AAA 5@150] the code yields averageCost = 110, a single realized event
with profit 200, netQuantity = 15, and with live price 130 an unrealized
P/L of 300 and market value 1950 (the `marketValue = netQuantity ×
effectivePrice` and `unrealizedPnL = marketValue − netQuantity ×
averageCost` formulas are the definitions of `curVal` and `unPnl`,
mirroring lines 125-126 of the source). -/
theorem C5_concrete_scenario :
    avgBuyPrice ledgerC5 "AAA" = 110 ∧
    realizedTrades ledgerC5 = [⟨3, "AAA", 200⟩] ∧
    totalRealizedProfit ledgerC5 = 200 ∧
    netQty ledgerC5 "AAA" = 15 ∧
    unPnl quoteC5 ledgerC5 "AAA" = 300 ∧
    curVal quoteC5 ledgerC5 "AAA" = 1950 := by
  refine ⟨?_, ?_, ?_, ?_, ?_, ?_⟩ <;>
    simp [ledgerC5, quoteC5, avgBuyPrice, totalBuyCost, totalBuyQty,
      totalSellQty, netQty, buys, sells, realizedTrades, uniqueTickers,
      uniqueList, eventsFor, mkEvent, totalRealizedProfit, unPnl, curVal,
      livePrice, List.filter] <;>
    norm_num

/-!
## C6: order of the realized series and the cumulative sum

The code builds `realized_trades` grouped by ticker (tickers in `unique()`
order, sells of one ticker in row order) and then sorts by `Date` with
pandas' default unstable quicksort, whose only contract is
`sortValuesDate`: a date-sorted permutation, equal-date order unspecified.
The claim says ties keep the original ledger (insertion) order;
`specLedgerOrderEvents` renders that claimed order for the comparison.
The sort contract permits outputs that violate it (the grouped
construction order itself is such an output on `ledgerC6`), so the claim
fails; what holds for *every* permitted output is: sorted by date, the
right multiset of events per date, and the cumulative column is the prefix
sum in output order.
-/

/-- Follows the spec's words (§4.2): one realized event per Sell record *in
original ledger (insertion) order*, then (stably) sorted by date — so that
"stable order for equal dates is by original ledger order". -/
def specLedgerOrderEvents (l : Ledger) : List RealizedEvent :=
  (l.filter (fun r => decide (r.type = "Sell"))).map (fun r => mkEvent l r.ticker r)

/-- Follows the spec's words (§4.2): the claimed output order of the
realized series. -/
def specChartEvents (l : Ledger) : List RealizedEvent :=
  (specLedgerOrderEvents l).mergeSort dateLE

/-- Two tickers, each bought on day 1 and sold on day 2, the BBB sell
recorded *before* the AAA sell. -/
def ledgerC6 : Ledger :=
  [⟨1, "AAA", "Buy", 10, 10, "P"⟩, ⟨1, "BBB", "Buy", 10, 10, "P"⟩,
    ⟨2, "BBB", "Sell", 5, 20, "P"⟩, ⟨2, "AAA", "Sell", 5, 30, "P"⟩]

theorem realizedTrades_ledgerC6 :
    realizedTrades ledgerC6 =
      [⟨2, "AAA", 100⟩, ⟨2, "BBB", 50⟩] := by
  simp [ledgerC6, realizedTrades, uniqueTickers, uniqueList, eventsFor,
    mkEvent, sells, buys, avgBuyPrice, totalBuyCost, totalBuyQty,
    List.filter]
  norm_num

theorem specLedgerOrderEvents_ledgerC6 :
    specLedgerOrderEvents ledgerC6 =
      [⟨2, "BBB", 50⟩, ⟨2, "AAA", 100⟩] := by
  simp [ledgerC6, specLedgerOrderEvents, mkEvent, avgBuyPrice,
    totalBuyCost, totalBuyQty, buys, List.filter]
  norm_num

/-- The series [AAA sell, BBB sell]: the construction order of
`realized_trades` on `ledgerC6`, which is already sorted by date. -/
def chartC6 : List RealizedEvent := [⟨2, "AAA", 100⟩, ⟨2, "BBB", 50⟩]

theorem sortValuesDate_chartC6 :
    sortValuesDate (realizedTrades ledgerC6) chartC6 := by
  constructor
  · rw [realizedTrades_ledgerC6]
    exact List.Perm.refl _
  · simp [chartC6, List.pairwise_cons]

/-- Counterexample to C6 as stated: on `ledgerC6` the two sells share a
date and the ledger records the BBB sell first, so the claimed series is
[BBB sell, AAA sell]; but `chartC6` = [AAA sell, BBB sell] is a permitted
output of the code's sort step (`sort_values` with the default unstable
quicksort guarantees only a date-sorted permutation), so the code does not
guarantee that events with equal dates keep their original ledger
(insertion) order. -/
theorem C6_counterexample :
    sortValuesDate (realizedTrades ledgerC6) chartC6 ∧
    chartC6 ≠ specChartEvents ledgerC6 := by
  refine ⟨sortValuesDate_chartC6, ?_⟩
  have h4 : specChartEvents ledgerC6 = [⟨2, "BBB", 50⟩, ⟨2, "AAA", 100⟩] := by
    rw [specChartEvents, specLedgerOrderEvents_ledgerC6]
    exact List.mergeSort_of_sorted (by simp [List.pairwise_cons, dateLE])
  rw [chartC6, h4]
  intro hcontra
  have : "AAA" = "BBB" := congrArg RealizedEvent.ticker
    (List.head_eq_of_cons_eq hcontra)
  simp at this

theorem dateLE_trans (a b c : RealizedEvent) :
    dateLE a b = true → dateLE b c = true → dateLE a c = true := by
  simp only [dateLE, decide_eq_true_eq]
  omega

theorem dateLE_total (a b : RealizedEvent) :
    (dateLE a b || dateLE b a) = true := by
  simp only [dateLE, Bool.or_eq_true, decide_eq_true_eq]
  omega

/-- The spec's "running sum of profit": element `i` is the sum of the
first `i+1` profits. -/
def prefixSums (xs : List ℚ) : List ℚ :=
  (List.range xs.length).map (fun i => (xs.take (i + 1)).sum)

theorem scanl_add_eq_map (xs : List ℚ) :
    ∀ a : ℚ, xs.scanl (· + ·) a = (xs.scanl (· + ·) 0).map (a + ·) := by
  induction xs with
  | nil => intro a; simp [List.scanl_nil]
  | cons x xs ih =>
    intro a
    rw [List.scanl_cons, List.scanl_cons, List.map_append, ih (a + x),
      ih (0 + x), List.map_map]
    congr 1
    · simp
    · congr 1
      funext y
      simp only [Function.comp]
      ring

theorem scanl_add_zero_eq (xs : List ℚ) :
    xs.scanl (· + ·) 0 = 0 :: cumsum xs := by
  cases xs with
  | nil => simp [cumsum, List.scanl_nil]
  | cons y ys =>
    rw [cumsum, List.scanl_cons, List.singleton_append, List.tail_cons]

theorem cumsum_cons (x : ℚ) (xs : List ℚ) :
    cumsum (x :: xs) = x :: (cumsum xs).map (x + ·) := by
  rw [cumsum, List.scanl_cons, List.singleton_append, List.tail_cons,
    scanl_add_eq_map xs (0 + x), scanl_add_zero_eq, List.map_cons]
  congr 1
  · simp
  · congr 1
    funext y
    simp

theorem prefixSums_cons (x : ℚ) (xs : List ℚ) :
    prefixSums (x :: xs) = x :: (prefixSums xs).map (x + ·) := by
  rw [prefixSums, List.length_cons, List.range_succ_eq_map, List.map_cons,
    List.map_map, prefixSums, List.map_map]
  congr 1
  simp

theorem cumsum_eq_prefixSums (xs : List ℚ) : cumsum xs = prefixSums xs := by
  induction xs with
  | nil => simp [cumsum, prefixSums, List.scanl]
  | cons x xs ih => rw [cumsum_cons, prefixSums_cons, ih]

/-- **C6** (corrected): every series the chart's sort step may produce —
any date-sorted permutation of `realized_trades`, which is all that
`sort_values` with pandas' default unstable quicksort guarantees — is
ordered by date ascending, carries for each date exactly the realized
events of that date (up to permutation), and its cumulative column is the
prefix (running) sum of its profits in output order.  The order of events
with equal dates is unspecified; in particular it is not the original
ledger (insertion) order (see `C6_counterexample`).  The deterministic
representative `chartEvents` is itself a permitted output. -/
theorem C6_sorted_and_prefix_sum (l : Ledger) (out : List RealizedEvent)
    (hout : sortValuesDate (realizedTrades l) out) :
    out.Pairwise (fun a b => a.date ≤ b.date) ∧
    (∀ d : Nat, ((out.filter (fun e => decide (e.date = d))).Perm
      ((realizedTrades l).filter (fun e => decide (e.date = d))))) ∧
    cumulativeProfitOf out = prefixSums (out.map (·.profit)) ∧
    sortValuesDate (realizedTrades l) (chartEvents l) := by
  refine ⟨hout.2, fun d => hout.1.filter _, cumsum_eq_prefixSums _, ?_⟩
  exact ⟨List.mergeSort_perm _ _,
    (List.sorted_mergeSort dateLE_trans dateLE_total
      (realizedTrades l)).imp (by simp [dateLE])⟩

/-- Witness for C6: `chartC6` is a permitted sort output on `ledgerC6`,
and the theorem applies to it. -/
theorem C6_sorted_and_prefix_sum_witness :
    sortValuesDate (realizedTrades ledgerC6) chartC6 ∧
    (chartC6.Pairwise (fun a b => a.date ≤ b.date) ∧
     (∀ d : Nat, ((chartC6.filter (fun e => decide (e.date = d))).Perm
       ((realizedTrades ledgerC6).filter (fun e => decide (e.date = d))))) ∧
     cumulativeProfitOf chartC6 = prefixSums (chartC6.map (·.profit)) ∧
     sortValuesDate (realizedTrades ledgerC6) (chartEvents ledgerC6)) :=
  ⟨sortValuesDate_chartC6,
    C6_sorted_and_prefix_sum ledgerC6 chartC6 sortValuesDate_chartC6⟩

/-!
## C8: short positions and the open-position filter
-/

/-- A sell of 5 on day 1 followed by a buy of 10 on day 2: the cumulative
sell quantity exceeds the cumulative buy quantity after the first record,
but not over the full ledger. -/
def ledgerC8 : Ledger :=
  [⟨1, "AAA", "Sell", 5, 100, "P"⟩, ⟨2, "AAA", "Buy", 10, 50, "P"⟩]

/-- Counterexample to C8 as stated: reading "ever exceeds" as "at some
point of the ledger the cumulative sell quantity exceeds the cumulative buy
quantity", `ledgerC8` satisfies it after its first record (prefix of length
1: sells 5, buys 0), yet the final net quantity is 5 > 0 and AAA *is*
reported as a holding — the code aggregates over the full ledger only and
has no prefix-wise condition. -/
theorem C8_counterexample :
    totalBuyQty (ledgerC8.take 1) "AAA" < totalSellQty (ledgerC8.take 1) "AAA" ∧
    0 < netQty ledgerC8 "AAA" ∧
    "AAA" ∈ (activePositions quoteFail (fun t => t) ledgerC8).map (·.ticker) := by
  refine ⟨?_, ?_, ?_⟩ <;>
    simp [ledgerC8, totalBuyQty, totalSellQty, netQty, buys, sells,
      quoteFail, activePositions, uniqueTickers, uniqueList, livePrice,
      curVal, unPnl, avgBuyPrice, totalBuyCost, List.filter] <;>
    norm_num

/-- **C8** (corrected): the prefix-wise ("ever exceeds") form fails on the
code (see `C8_counterexample`); what holds is the whole-ledger form: if the
total sell quantity over the full ledger exceeds the total buy quantity
then the net quantity is ≤ 0 and the ticker is not among the reported
holdings; and in general a ticker is reported as a holding iff its net
quantity is positive. -/
theorem C8_holdings_iff_positive_netQty (q : String → Option ℚ)
    (nm : String → String) (l : Ledger) (t : String) :
    (totalBuyQty l t < totalSellQty l t →
      netQty l t ≤ 0 ∧ t ∉ (activePositions q nm l).map (·.ticker)) ∧
    (t ∈ (activePositions q nm l).map (·.ticker) ↔ 0 < netQty l t) := by
  have hiff : t ∈ (activePositions q nm l).map (·.ticker) ↔ 0 < netQty l t := by
    constructor
    · intro h
      obtain ⟨p, hp, hpt⟩ := List.mem_map.1 h
      obtain ⟨t', ht', hft⟩ := List.mem_filterMap.1 hp
      by_cases hpos : 0 < netQty l t'
      · rw [if_pos hpos] at hft
        obtain rfl := Option.some.inj hft
        exact hpt ▸ hpos
      · rw [if_neg hpos] at hft
        cases hft
    · intro h
      apply List.mem_map.2
      refine ⟨⟨t, nm t, netQty l t, avgBuyPrice l t, livePrice q l t,
        curVal q l t, unPnl q l t⟩, ?_, rfl⟩
      apply List.mem_filterMap.2
      exact ⟨t, mem_uniqueTickers_of_netQty_ne_zero (ne_of_gt h),
        by rw [if_pos h]⟩
  refine ⟨fun hlt => ?_, hiff⟩
  have hneg : netQty l t ≤ 0 := by rw [netQty]; linarith
  exact ⟨hneg, fun hmem => absurd (hiff.1 hmem) (by linarith)⟩

/-- Ledger for the C8 witness: sells exceed buys over the full ledger. -/
def ledgerC8w : Ledger :=
  [⟨1, "AAA", "Sell", 5, 100, "P"⟩, ⟨2, "AAA", "Buy", 2, 50, "P"⟩]

/-- Witness for C8: on `ledgerC8w` the full-ledger sell total exceeds the
buy total, and applying the theorem there shows the exclusion. -/
theorem C8_holdings_iff_positive_netQty_witness :
    totalBuyQty ledgerC8w "AAA" < totalSellQty ledgerC8w "AAA" ∧
    (netQty ledgerC8w "AAA" ≤ 0 ∧
      "AAA" ∉ (activePositions quoteFail (fun t => t) ledgerC8w).map
        (·.ticker)) := by
  constructor
  · simp [totalBuyQty, totalSellQty, buys, sells, ledgerC8w, List.filter]
    norm_num
  · exact (C8_holdings_iff_positive_netQty quoteFail (fun t => t) ledgerC8w
      "AAA").1
      (by simp [totalBuyQty, totalSellQty, buys, sells, ledgerC8w,
        List.filter]; norm_num)

/-!
## C9: storage failure handling
-/

/-- Counterexample to C9 as stated: `load_data` maps a read failure to the
empty frame (line 26), so the read-failure state and the genuinely-empty
state are the *same* value — the caller cannot distinguish them and an
ordinary (empty) snapshot is produced. -/
theorem C9_counterexample :
    load_data (Except.error "boom") = load_data (Except.ok ([] : Ledger)) :=
  rfl

/-- **C9** (corrected): on a storage error the evaluation does not fail
closed: `load_data` swallows the exception and returns an empty ledger,
the evaluation proceeds and produces the empty snapshot (no positions, no
realized events, all totals 0), exactly as for a genuinely empty ledger. -/
theorem C9_read_failure_presented_as_empty (e : String)
    (q : String → Option ℚ) (nm : String → String) :
    load_data (Except.error e) = [] ∧
    activePositions q nm (load_data (Except.error e)) = [] ∧
    realizedTrades (load_data (Except.error e)) = [] ∧
    totalMarketVal q (load_data (Except.error e)) = 0 ∧
    totalUnrealizedPnl q (load_data (Except.error e)) = 0 ∧
    totalRealizedProfit (load_data (Except.error e)) = 0 ∧
    load_data (Except.error e) = load_data (Except.ok []) := by
  refine ⟨rfl, ?_, ?_, ?_, ?_, ?_, rfl⟩ <;>
    first
    | rfl
    | simp [load_data, activePositions, realizedTrades, uniqueTickers,
        uniqueList, totalMarketVal, totalUnrealizedPnl, totalRealizedProfit]

/-!
## C10: outputs do not depend on the Platform column
-/

/-- Rewrite the `Platform` field of a record arbitrarily (even as a
function of the whole record); every other field is kept. -/
def setPlatform (f : TradeRecord → String) (r : TradeRecord) : TradeRecord :=
  { r with platform := f r }

theorem setPlatform_preservesFields (f : TradeRecord → String) :
    preservesFields (setPlatform f) :=
  fun _ => ⟨rfl, rfl, rfl, rfl⟩

theorem eventsFor_setPlatform (f : TradeRecord → String) (l : Ledger)
    (t : String) : eventsFor ((l.map (setPlatform f))) t = eventsFor l t := by
  rw [eventsFor, eventsFor, sells_map (setPlatform_preservesFields f),
    List.map_map]
  apply List.map_congr_left
  intro r _
  simp only [Function.comp, mkEvent, setPlatform,
    avgBuyPrice_map (setPlatform_preservesFields f)]

theorem realizedTrades_setPlatform (f : TradeRecord → String) (l : Ledger) :
    realizedTrades (l.map (setPlatform f)) = realizedTrades l := by
  rw [realizedTrades, realizedTrades,
    uniqueTickers_map (setPlatform_preservesFields f)]
  congr 1
  funext t
  exact eventsFor_setPlatform f l t

theorem livePrice_map {g : TradeRecord → TradeRecord}
    (hg : preservesFields g) (q : String → Option ℚ) (l : Ledger)
    (t : String) : livePrice q (l.map g) t = livePrice q l t := by
  rw [livePrice, livePrice, avgBuyPrice_map hg]

theorem curVal_map {g : TradeRecord → TradeRecord} (hg : preservesFields g)
    (q : String → Option ℚ) (l : Ledger) (t : String) :
    curVal q (l.map g) t = curVal q l t := by
  rw [curVal, curVal, netQty_map hg, livePrice_map hg]

theorem unPnl_map {g : TradeRecord → TradeRecord} (hg : preservesFields g)
    (q : String → Option ℚ) (l : Ledger) (t : String) :
    unPnl q (l.map g) t = unPnl q l t := by
  rw [unPnl, unPnl, curVal_map hg, netQty_map hg, avgBuyPrice_map hg]

theorem activePositions_map {g : TradeRecord → TradeRecord}
    (hg : preservesFields g) (q : String → Option ℚ) (nm : String → String)
    (l : Ledger) : activePositions q nm (l.map g) = activePositions q nm l := by
  rw [activePositions, activePositions, uniqueTickers_map hg]
  congr 1
  funext t
  rw [netQty_map hg, avgBuyPrice_map hg, livePrice_map hg, curVal_map hg,
    unPnl_map hg]

theorem totalMarketVal_map {g : TradeRecord → TradeRecord}
    (hg : preservesFields g) (q : String → Option ℚ) (l : Ledger) :
    totalMarketVal q (l.map g) = totalMarketVal q l := by
  rw [totalMarketVal, totalMarketVal, uniqueTickers_map hg]
  congr 1
  apply List.map_congr_left
  intro t _
  rw [netQty_map hg, curVal_map hg]

theorem totalUnrealizedPnl_map {g : TradeRecord → TradeRecord}
    (hg : preservesFields g) (q : String → Option ℚ) (l : Ledger) :
    totalUnrealizedPnl q (l.map g) = totalUnrealizedPnl q l := by
  rw [totalUnrealizedPnl, totalUnrealizedPnl, uniqueTickers_map hg]
  congr 1
  apply List.map_congr_left
  intro t _
  rw [netQty_map hg, unPnl_map hg]

/-- **C10** (confirmed): positions are keyed by ticker only.  For any
rewriting of every record's `Platform` field (the only field that can
differ between two ledgers that "differ only in Platform"), every output
of the evaluation — per-ticker net quantity and average cost, the realized
series and its sorted and cumulative forms, the active-position records
and all three portfolio totals — is unchanged; trades on different
platforms for the same ticker are merged into one position. -/
theorem C10_platform_invariance (l : Ledger) (f : TradeRecord → String)
    (q : String → Option ℚ) (nm : String → String) (t : String) :
    netQty (l.map (setPlatform f)) t = netQty l t ∧
    avgBuyPrice (l.map (setPlatform f)) t = avgBuyPrice l t ∧
    realizedTrades (l.map (setPlatform f)) = realizedTrades l ∧
    chartEvents (l.map (setPlatform f)) = chartEvents l ∧
    cumulativeProfit (l.map (setPlatform f)) = cumulativeProfit l ∧
    totalRealizedProfit (l.map (setPlatform f)) = totalRealizedProfit l ∧
    activePositions q nm (l.map (setPlatform f)) = activePositions q nm l ∧
    totalMarketVal q (l.map (setPlatform f)) = totalMarketVal q l ∧
    totalUnrealizedPnl q (l.map (setPlatform f)) = totalUnrealizedPnl q l := by
  have hg := setPlatform_preservesFields f
  refine ⟨netQty_map hg l t, avgBuyPrice_map hg l t,
    realizedTrades_setPlatform f l, ?_, ?_, ?_,
    activePositions_map hg q nm l, totalMarketVal_map hg q l,
    totalUnrealizedPnl_map hg q l⟩
  · rw [chartEvents, chartEvents, realizedTrades_setPlatform f]
  · rw [cumulativeProfit, cumulativeProfit, chartEvents, chartEvents,
      realizedTrades_setPlatform f]
  · rw [totalRealizedProfit, totalRealizedProfit,
      realizedTrades_setPlatform f]

/-!
## C7: malformed records

The code performs no record validation: `pd.to_numeric(errors='coerce')`
only coerces types.  Records whose `Type` is neither `'Buy'` nor `'Sell'`
fall out of every `buys`/`sells` filter and so contribute nothing, but
negative quantities and prices, and empty symbols, flow through arithmetic
like any other value.
-/

/-- Follows the spec's words (§4.1/§7): a well-formed record has
non-negative quantity and price, a recognized side and a non-empty
symbol. -/
def validRecord (r : TradeRecord) : Bool :=
  decide (0 ≤ r.qty) && decide (0 ≤ r.price) &&
    (decide (r.type = "Buy") || decide (r.type = "Sell")) &&
    decide (r.ticker ≠ "")

/-- Records whose side the aggregation loop recognizes at all. -/
def sideOK (r : TradeRecord) : Bool :=
  decide (r.type = "Buy") || decide (r.type = "Sell")

/-- A valid buy followed by a sell with negative quantity. -/
def ledgerC7 : Ledger :=
  [⟨1, "AAA", "Buy", 10, 10, "P"⟩, ⟨2, "AAA", "Sell", -5, 20, "P"⟩]

/-- Counterexample to C7 as stated: the negative-quantity sell is a
malformed record, yet it is neither rejected nor skipped: it contributes
−50 to the realized profit (and +5 to the net quantity), so the outputs
differ from the outputs on the validity-filtered ledger. -/
theorem C7_counterexample :
    validRecord ⟨2, "AAA", "Sell", -5, 20, "P"⟩ = false ∧
    totalRealizedProfit ledgerC7 = -50 ∧
    totalRealizedProfit (ledgerC7.filter validRecord) = 0 ∧
    netQty ledgerC7 "AAA" = 15 ∧
    netQty (ledgerC7.filter validRecord) "AAA" = 10 := by
  refine ⟨?_, ?_, ?_, ?_, ?_⟩ <;>
    simp [ledgerC7, validRecord, totalRealizedProfit, realizedTrades,
      uniqueTickers, uniqueList, eventsFor, mkEvent, sells, buys,
      avgBuyPrice, totalBuyCost, totalBuyQty, totalSellQty, netQty,
      List.filter] <;>
    norm_num

theorem mem_buys {l : Ledger} {t : String} {r : TradeRecord} :
    r ∈ buys l t ↔ r ∈ l ∧ r.ticker = t ∧ r.type = "Buy" := by
  simp [buys, List.mem_filter, and_assoc]

theorem buys_filter_sideOK (l : Ledger) (t : String) :
    buys (l.filter sideOK) t = buys l t := by
  rw [buys, buys, List.filter_filter]
  apply List.filter_congr
  intro r _
  by_cases hB : r.type = "Buy" <;> simp [sideOK, hB]

theorem sells_filter_sideOK (l : Ledger) (t : String) :
    sells (l.filter sideOK) t = sells l t := by
  rw [sells, sells, List.filter_filter]
  apply List.filter_congr
  intro r _
  by_cases hS : r.type = "Sell" <;> simp [sideOK, hS]

theorem netQty_filter_sideOK (l : Ledger) (t : String) :
    netQty (l.filter sideOK) t = netQty l t := by
  rw [netQty, netQty, totalBuyQty, totalBuyQty, totalSellQty, totalSellQty,
    buys_filter_sideOK, sells_filter_sideOK]

theorem avgBuyPrice_filter_sideOK (l : Ledger) (t : String) :
    avgBuyPrice (l.filter sideOK) t = avgBuyPrice l t := by
  rw [avgBuyPrice, avgBuyPrice, totalBuyQty, totalBuyQty, totalBuyCost,
    totalBuyCost, buys_filter_sideOK]

theorem livePrice_filter_sideOK (q : String → Option ℚ) (l : Ledger)
    (t : String) : livePrice q (l.filter sideOK) t = livePrice q l t := by
  rw [livePrice, livePrice, avgBuyPrice_filter_sideOK]

theorem curVal_filter_sideOK (q : String → Option ℚ) (l : Ledger)
    (t : String) : curVal q (l.filter sideOK) t = curVal q l t := by
  rw [curVal, curVal, netQty_filter_sideOK, livePrice_filter_sideOK]

theorem unPnl_filter_sideOK (q : String → Option ℚ) (l : Ledger)
    (t : String) : unPnl q (l.filter sideOK) t = unPnl q l t := by
  rw [unPnl, unPnl, curVal_filter_sideOK, netQty_filter_sideOK,
    avgBuyPrice_filter_sideOK]

theorem eventsFor_filter_sideOK (l : Ledger) (t : String) :
    eventsFor (l.filter sideOK) t = eventsFor l t := by
  rw [eventsFor, eventsFor, sells_filter_sideOK]
  apply List.map_congr_left
  intro r _
  simp only [mkEvent, avgBuyPrice_filter_sideOK]

theorem sum_profit_flatMap (ts : List String)
    (f : String → List RealizedEvent) :
    ((ts.flatMap f).map (·.profit)).sum =
      (ts.map (fun t => ((f t).map (·.profit)).sum)).sum := by
  induction ts with
  | nil => simp
  | cons t ts ih => simp [List.flatMap_cons, ih]

theorem totalRealizedProfit_eq_sum_over_tickers (l : Ledger) :
    totalRealizedProfit l =
      ((uniqueTickers l).map
        (fun t => ((eventsFor l t).map (·.profit)).sum)).sum := by
  rw [totalRealizedProfit, realizedTrades, sum_profit_flatMap]

/-- Two duplicate-free index lists give the same sum of `f` when they agree
on membership wherever `f` is nonzero. -/
theorem sum_map_eq_of_mem_iff (xs ys : List String) (f : String → ℚ)
    (hx : xs.Nodup) (hy : ys.Nodup)
    (h : ∀ t, f t ≠ 0 → (t ∈ xs ↔ t ∈ ys)) :
    (xs.map f).sum = (ys.map f).sum := by
  rw [← List.sum_toFinset f hx, ← List.sum_toFinset f hy]
  have h1 : ∑ x ∈ xs.toFinset.filter (fun t => f t ≠ 0), f x =
      ∑ x ∈ xs.toFinset, f x :=
    Finset.sum_filter_of_ne (fun x _ hfx => hfx)
  have h2 : ∑ x ∈ ys.toFinset.filter (fun t => f t ≠ 0), f x =
      ∑ x ∈ ys.toFinset, f x :=
    Finset.sum_filter_of_ne (fun x _ hfx => hfx)
  rw [← h1, ← h2]
  congr 1
  ext t
  simp only [Finset.mem_filter, List.mem_toFinset]
  constructor
  · rintro ⟨hmem, hne⟩
    exact ⟨(h t hne).1 hmem, hne⟩
  · rintro ⟨hmem, hne⟩
    exact ⟨(h t hne).2 hmem, hne⟩

theorem netQty_ne_zero_exists {l : Ledger} {t : String}
    (h : netQty l t ≠ 0) :
    ∃ r ∈ l, r.ticker = t ∧ (r.type = "Buy" ∨ r.type = "Sell") := by
  rcases Classical.em (buys l t = []) with hb | hb
  · rcases Classical.em (sells l t = []) with hs | hs
    · exfalso
      apply h
      rw [netQty, totalBuyQty, totalSellQty, hb, hs]
      simp
    · obtain ⟨r, hr⟩ := List.exists_mem_of_ne_nil _ hs
      obtain ⟨hrl, hrt, hrs⟩ := mem_sells.1 hr
      exact ⟨r, hrl, hrt, Or.inr hrs⟩
  · obtain ⟨r, hr⟩ := List.exists_mem_of_ne_nil _ hb
    obtain ⟨hrl, hrt, hrb⟩ := mem_buys.1 hr
    exact ⟨r, hrl, hrt, Or.inl hrb⟩

theorem mem_uniqueTickers_filter_sideOK_iff {l : Ledger} {t : String}
    (hex : ∃ r ∈ l, r.ticker = t ∧ (r.type = "Buy" ∨ r.type = "Sell")) :
    t ∈ uniqueTickers (l.filter sideOK) ↔ t ∈ uniqueTickers l := by
  obtain ⟨r, hrl, hrt, hside⟩ := hex
  have hOK : sideOK r = true := by
    rcases hside with hB | hS
    · simp [sideOK, hB]
    · simp [sideOK, hS]
  constructor
  · intro _
    exact mem_uniqueTickers.2 ⟨r, hrl, hrt⟩
  · intro _
    exact mem_uniqueTickers.2 ⟨r, List.mem_filter.2 ⟨hrl, hOK⟩, hrt⟩

/-- **C7** (corrected): the code rejects nothing and reports no
`InvalidRecord`.  What holds is: records with an unrecognized side are the
only ones that are (silently) skipped — dropping them changes no per-ticker
quantity and no portfolio total — while records with negative quantity or
price or an empty symbol contribute to positions, realized profit and
totals like any other record (see `C7_counterexample`). -/
theorem C7_only_unrecognized_side_is_skipped (l : Ledger) (t : String)
    (q : String → Option ℚ) :
    buys (l.filter sideOK) t = buys l t ∧
    sells (l.filter sideOK) t = sells l t ∧
    netQty (l.filter sideOK) t = netQty l t ∧
    avgBuyPrice (l.filter sideOK) t = avgBuyPrice l t ∧
    totalRealizedProfit (l.filter sideOK) = totalRealizedProfit l ∧
    totalMarketVal q (l.filter sideOK) = totalMarketVal q l ∧
    totalUnrealizedPnl q (l.filter sideOK) = totalUnrealizedPnl q l := by
  refine ⟨buys_filter_sideOK l t, sells_filter_sideOK l t,
    netQty_filter_sideOK l t, avgBuyPrice_filter_sideOK l t, ?_, ?_, ?_⟩
  · rw [totalRealizedProfit_eq_sum_over_tickers,
      totalRealizedProfit_eq_sum_over_tickers,
      List.map_congr_left (fun t _ => by rw [eventsFor_filter_sideOK])]
    apply sum_map_eq_of_mem_iff _ _ _ (nodup_uniqueList _) (nodup_uniqueList _)
    intro t hf
    have hne : sells l t ≠ [] := by
      intro hnil
      apply hf
      rw [eventsFor, hnil]
      simp
    obtain ⟨r, hr⟩ := List.exists_mem_of_ne_nil _ hne
    obtain ⟨hrl, hrt, hrs⟩ := mem_sells.1 hr
    exact mem_uniqueTickers_filter_sideOK_iff ⟨r, hrl, hrt, Or.inr hrs⟩
  · rw [totalMarketVal, totalMarketVal,
      List.map_congr_left (fun t _ => by
        rw [netQty_filter_sideOK, curVal_filter_sideOK])]
    apply sum_map_eq_of_mem_iff _ _ _ (nodup_uniqueList _) (nodup_uniqueList _)
    intro t hf
    have hnet : netQty l t ≠ 0 := by
      intro h0
      apply hf
      rw [if_neg (by rw [h0]; exact lt_irrefl 0)]
    exact mem_uniqueTickers_filter_sideOK_iff (netQty_ne_zero_exists hnet)
  · rw [totalUnrealizedPnl, totalUnrealizedPnl,
      List.map_congr_left (fun t _ => by
        rw [netQty_filter_sideOK, unPnl_filter_sideOK])]
    apply sum_map_eq_of_mem_iff _ _ _ (nodup_uniqueList _) (nodup_uniqueList _)
    intro t hf
    have hnet : netQty l t ≠ 0 := by
      intro h0
      apply hf
      rw [if_neg (by rw [h0]; exact lt_irrefl 0)]
    exact mem_uniqueTickers_filter_sideOK_iff (netQty_ne_zero_exists hnet)

end Tracker
